import Mathlib

/-!
# Verification of the bevy_simplenet client/server messaging core

Shallow embedding of the client handle (`src/client/client.rs`), the server
handle (`src/server/server.rs`), and the supporting subsystems (pending-request
tracker, request token, connection prevalidator, connection-cap admission).
Payloads are opaque in the embedding; serialization outcomes and the backend
channel liveness are passed as booleans, matching the fallible calls in the
source (`bincode::serialize`, `ezsockets` `binary`/`close`/`send`).

The modules `common_internal.rs`, `rate_limiter.rs` and `authentication.rs`
are not present in the source tree; definitions taken from the specification
instead of the source carry a doc comment starting `Modelled from the spec:`.
-/

namespace BevySimplenet

/-- Status of a pending request (spec data model §3 / §4.5). -/
inductive RequestStatus
  | sending
  | sent
  | responseReceived
  | acked
  | rejected
  | failed
  | aborted
  deriving DecidableEq, Repr

/-- Terminal statuses: the last four of the data model. -/
def RequestStatus.isTerminal : RequestStatus → Bool
  | .responseReceived => true
  | .acked => true
  | .rejected => true
  | .failed => true
  | .aborted => true
  | _ => false

/-- Modelled from the spec: the client-side pending-request tracker state
(§4.5, `PendingRequestTracker` lives in the absent `common_internal` module):
`{ next_id : u64, entries : Map<request_id, Entry> }`, ids allocated from 1. -/
structure PendingRequestTracker where
  next_id : Nat
  entries : List (Nat × RequestStatus)
  deriving DecidableEq, Repr

/-- Modelled from the spec: a fresh tracker allocates ids from 1. -/
def PendingRequestTracker.init : PendingRequestTracker := ⟨1, []⟩

/-- Modelled from the spec: reserve the next request id (monotonic allocation). -/
def PendingRequestTracker.reserve_id (t : PendingRequestTracker) :
    Nat × PendingRequestTracker :=
  (t.next_id, { t with next_id := t.next_id + 1 })

/-- Modelled from the spec: insert an entry in the `Sending` state (§4.5). -/
def PendingRequestTracker.add_request (t : PendingRequestTracker) (id : Nat) :
    PendingRequestTracker :=
  { t with entries := t.entries ++ [(id, RequestStatus.sending)] }

/-- Modelled from the spec: `fail_all` — every non-terminal entry transitions
to `Failed` (§4.5). -/
def PendingRequestTracker.fail_all (t : PendingRequestTracker) : PendingRequestTracker :=
  { t with entries :=
      t.entries.map (fun e => if e.2.isTerminal then e else (e.1, RequestStatus.failed)) }

/-- Reports delivered through the client's event channel
(`ClientReport` in the public API). -/
inductive ClientReport
  | connected
  | disconnected
  | closedBySelf
  | closedByServer
  | isDead
  deriving DecidableEq, Repr

/-- Client events: lifecycle reports plus per-request failure notifications
(`SendFailed`/`ResponseLost` are collapsed to one constructor since payload
codecs are opaque here). -/
inductive ClientEvent
  | report (r : ClientReport)
  | sendFailed (request_id : Nat)
  deriving DecidableEq, Repr

/-- Frames handed to the underlying socket client (`self.client.binary`). -/
inductive ClientFrame
  | msg
  | request (request_id : Nat)
  deriving DecidableEq, Repr

/-- State of a `Client` handle (`src/client/client.rs`): the three atomic
flags, the pending-request tracker behind its mutex, the event channel
contents, the frames queued on the socket, and whether the inner `ezsockets`
client still accepts calls (`binary`/`close` return `Err` when it is dead). -/
structure ClientState where
  connectedSignal : Bool
  deadSignal : Bool
  closedBySelf : Bool
  backendAlive : Bool
  pending : PendingRequestTracker
  eventQueue : List ClientEvent
  wire : List ClientFrame
  deriving DecidableEq, Repr

namespace Client

/-- `Client::is_dead`: reads the `client_closed_signal` atomic. -/
def is_dead (s : ClientState) : Bool := s.deadSignal

/-- `Client::is_closed`: `closed_by_self || is_dead()`. -/
def is_closed (s : ClientState) : Bool := s.closedBySelf || is_dead s

/-- `Client::is_connected`: `client_connected_signal && !is_closed()`. -/
def is_connected (s : ClientState) : Bool := s.connectedSignal && !(is_closed s)

/-- Result of a host call to `send`/`request`: `Ok(signal)` versus `Err(())`,
collapsed to success/failure (the signal payload is opaque here). -/
inductive HostResult
  | ok
  | err
  deriving DecidableEq, Repr

/-- `Client::send` (src/client/client.rs:55-73): check `is_connected`, then
serialize (`serOk` is the outcome of `bincode::serialize`), then submit to the
inner client, which fails if the backend is dead. -/
def send (s : ClientState) (serOk : Bool) : HostResult × ClientState :=
  if !(is_connected s) then (.err, s)
  else if !serOk then (.err, s)
  else if s.backendAlive then (.ok, { s with wire := s.wire ++ [ClientFrame.msg] })
  else (.err, s)

/-- `Client::request` (src/client/client.rs:81-113): lock the pending-request
tracker, check `is_connected` *under the lock*, reserve an id, serialize, then
submit; only on successful submission is the entry added to the tracker. -/
def request (s : ClientState) (serOk : Bool) : Option Nat × ClientState :=
  if !(is_connected s) then (none, s)
  else
    let idt := s.pending.reserve_id
    if !serOk then (none, { s with pending := idt.2 })
    else if s.backendAlive then
      (some idt.1, { s with pending := idt.2.add_request idt.1,
                            wire := s.wire ++ [ClientFrame.request idt.1] })
    else (none, { s with pending := idt.2 })

/-- `Client::next` (src/client/client.rs:118-122): `try_recv` on the event
channel. -/
def next (s : ClientState) : Option ClientEvent × ClientState :=
  match s.eventQueue with
  | [] => (none, s)
  | e :: rest => (some e, { s with eventQueue := rest })

/-- `Client::close` (src/client/client.rs:164-192): return if already closed;
ask the inner client to close (fails when the backend is dead, in which case
nothing else happens); send the `ClosedBySelf` report; set `closed_by_self`. -/
def close (s : ClientState) : ClientState :=
  if is_closed s then s
  else if !s.backendAlive then s
  else { s with eventQueue := s.eventQueue ++ [ClientEvent.report ClientReport.closedBySelf],
                closedBySelf := true }

/-- `impl Drop for Client` (src/client/client.rs:195-202): if not dead, call
`close` exactly once. -/
def dropClient (s : ClientState) : ClientState :=
  if is_dead s then s else close s

end Client

/-- A server-side request token (`RequestToken` in the absent
`common_internal` module; fields per the spec data model §3):
`{ client_id, request_id, death_signal }`. Consumption is by move in the
source, so the embedding passes the token to exactly one consuming
operation instead of carrying a `consumed` flag. -/
structure RequestToken where
  client_id : Nat
  request_id : Nat
  destination_is_dead : Bool
  deriving DecidableEq, Repr

/-- Commands the server handle forwards to the internal connection handler
through `client_event_sender` (`SessionCommand` in the source), plus the
`Reject` frame synthesized by a token drop. -/
inductive ServerCommand
  | sendMsg (session_id : Nat)
  | sendResponse (session_id request_id : Nat)
  | sendAck (session_id request_id : Nat)
  | sendReject (session_id request_id : Nat)
  | closeSession (session_id : Nat)
  deriving DecidableEq, Repr

/-- State of a `Server` handle (`src/server/server.rs`): the dead signal
(`server_closed_signal.done() || server_running_signal.done()`), whether the
internal command channel still accepts sends, the commands forwarded so far,
and the worker's session registry (which the handle methods never read). -/
structure ServerState where
  dead : Bool
  channelOpen : Bool
  commands : List ServerCommand
  sessions : List Nat
  deriving DecidableEq, Repr

namespace Server

/-- Result of a host call on the server handle. -/
inductive HostResult
  | ok
  | err
  deriving DecidableEq, Repr

/-- `Server::send` (src/server/server.rs:123-137): `Err` if dead, else forward
a `Send(Msg)` command addressed to `id`; `Err` if the channel send fails. -/
def send (s : ServerState) (id : Nat) : HostResult × ServerState :=
  if s.dead then (.err, s)
  else if s.channelOpen then
    (.ok, { s with commands := s.commands ++ [ServerCommand.sendMsg id] })
  else (.err, s)

/-- `Server::respond` (src/server/server.rs:142-175): `Err` if the server is
dead; `Ok` with no frame if the token's destination is dead; otherwise take
the token and forward `Send(Response, death_signal)`. -/
def respond (s : ServerState) (t : RequestToken) : HostResult × ServerState :=
  if s.dead then (.err, s)
  else if t.destination_is_dead then (.ok, s)
  else if s.channelOpen then
    (.ok, { s with commands :=
              s.commands ++ [ServerCommand.sendResponse t.client_id t.request_id] })
  else (.err, s)

/-- `Server::ack` (src/server/server.rs:182-212): same shape as `respond`,
forwarding `Send(Ack)`. -/
def ack (s : ServerState) (t : RequestToken) : HostResult × ServerState :=
  if s.dead then (.err, s)
  else if t.destination_is_dead then (.ok, s)
  else if s.channelOpen then
    (.ok, { s with commands :=
              s.commands ++ [ServerCommand.sendAck t.client_id t.request_id] })
  else (.err, s)

/-- Modelled from the spec: the `RequestToken` `Drop` impl (absent
`common_internal` module; §4.6): dropping an un-consumed token synthesizes
`Reject(request_id)` to the originating client if the destination is still
live, and sends nothing if the destination is dead. -/
def tokenDropEffect (s : ServerState) (t : RequestToken) : ServerState :=
  if t.destination_is_dead then s
  else { s with commands :=
           s.commands ++ [ServerCommand.sendReject t.client_id t.request_id] }

/-- `Server::reject` (src/server/server.rs:214-218): the body does nothing;
the token is dropped at the end of scope, which runs its `Drop` impl. -/
def reject (s : ServerState) (t : RequestToken) : ServerState :=
  tokenDropEffect s t

/-- `Server::close_session` (src/server/server.rs:223-241): `Err` if dead,
else forward a `Close` command addressed to `id`; `Err` if the channel send
fails. -/
def close_session (s : ServerState) (id : Nat) : HostResult × ServerState :=
  if s.dead then (.err, s)
  else if s.channelOpen then
    (.ok, { s with commands := s.commands ++ [ServerCommand.closeSession id] })
  else (.err, s)

/-- `Server::num_connections` (src/server/server.rs:257-260): reads the
connection counter, which tracks the live sessions. -/
def num_connections (s : ServerState) : Nat := s.sessions.length

end Server

/-- Client environment type (`EnvType` from the query parameter `t`). -/
inductive EnvType
  | native
  | wasm
  deriving DecidableEq, Repr

/-- Modelled from the spec: the query parameters consumed by prevalidation
(§4.4, §6); the authenticator is a pure predicate over the auth request, so
its verdict is carried as a boolean. An unrecognized `t` value is `none`. -/
structure UpgradeQuery where
  protocol_version : String
  env_type : Option EnvType
  authOk : Bool
  deriving DecidableEq, Repr

/-- Outcome of prevalidation (`prevalidate_connection_request` in the absent
`common_internal` module). -/
inductive PrevalidateResult
  | accept (e : EnvType)
  | reject400
  | reject503
  | reject401
  deriving DecidableEq, Repr

/-- Modelled from the spec: `prevalidate_connection_request` (§4.4): version
mismatch and unrecognized env are 400-class, capacity 503-class, auth
401-class, checked in the table's order; all pass returns the client env. -/
def prevalidate_connection_request (cfgVersion : String) (maxConn : Nat)
    (count : Nat) (q : UpgradeQuery) : PrevalidateResult :=
  if q.protocol_version ≠ cfgVersion then .reject400
  else
    match q.env_type with
    | none => .reject400
    | some e =>
      if maxConn ≤ count then .reject503
      else if !q.authOk then .reject401
      else .accept e

/-- Outcome of the axum upgrade route. -/
inductive UpgradeOutcome
  | upgraded (e : EnvType)
  | httpReject (code : Nat)
  deriving DecidableEq, Repr

/-- `websocket_handler` (src/server/server.rs:46-59): prevalidate, then either
perform the WebSocket upgrade with the negotiated socket config or turn the
prevalidation error into an HTTP response. -/
def websocket_handler (cfgVersion : String) (maxConn : Nat) (count : Nat)
    (q : UpgradeQuery) : UpgradeOutcome :=
  match prevalidate_connection_request cfgVersion maxConn count q with
  | .accept e => .upgraded e
  | .reject400 => .httpReject 400
  | .reject503 => .httpReject 503
  | .reject401 => .httpReject 401

/-- Events the server emits to its host (`ServerReport` in the source;
the connect-message payload is opaque here). -/
inductive ServerReportEvent
  | connected (session_id : Nat)
  | disconnected (session_id : Nat)
  deriving DecidableEq, Repr

/-- Modelled from the spec: the admission-control state seen across the
prevalidator, connection counter, and connection handler (§4.3, §4.4, §8.1);
the `ConnectionHandler`/`ConnectionCounter` code is in the absent
`common_internal` module. `sessions` are the live sessions; the counter
equals their number. -/
structure CapState where
  sessions : List Nat
  serverEvents : List ServerReportEvent
  deriving DecidableEq, Repr

/-- Modelled from the spec: a connection attempt against the cap (§8.1): at
capacity the client observes `Connected` then `ClosedByServer` and no session
is installed nor any server event emitted; below capacity the client observes
`Connected`, the session is installed, and the server emits `Connected`. -/
def capConnect (maxConn : Nat) (st : CapState) (id : Nat) :
    List ClientReport × CapState :=
  if maxConn ≤ st.sessions.length then
    ([ClientReport.connected, ClientReport.closedByServer], st)
  else
    ([ClientReport.connected],
     ⟨st.sessions ++ [id], st.serverEvents ++ [ServerReportEvent.connected id]⟩)

/-- Modelled from the spec: a session termination decrements the tally and
emits `Disconnected` (§4.7). -/
def capDisconnect (st : CapState) (id : Nat) : CapState :=
  if id ∈ st.sessions then
    ⟨st.sessions.erase id, st.serverEvents ++ [ServerReportEvent.disconnected id]⟩
  else st

/-- One admission-control operation. -/
inductive CapOp
  | connect (id : Nat)
  | disconnect (id : Nat)
  deriving DecidableEq, Repr

/-- Step of the admission-control model. -/
def capStep (maxConn : Nat) (st : CapState) : CapOp → CapState
  | .connect id => (capConnect maxConn st id).2
  | .disconnect id => capDisconnect st id

/-- Run of the admission-control model. -/
def capRun (maxConn : Nat) (st : CapState) (ops : List CapOp) : CapState :=
  ops.foldl (capStep maxConn) st

/-- Modelled from the spec: the client session driver leaving the connected
state clears the connected flag *before* the dropped handler runs `fail_all`
on the tracker (§4.9, §4.5; the `ClientHandler` code is in the absent
`common_internal` module). Both tracker actions run under the tracker mutex,
so the whole sequence is a single atomic step relative to `Client::request`. -/
def handlerDisconnect (s : ClientState) : ClientState :=
  { s with connectedSignal := false, pending := s.pending.fail_all }

/-- Modelled from the spec: the inner client handler terminating (§4.9): the
connected flag is cleared, pending requests fail and their failure events are
emitted, `IsDead` is enqueued as the final event, the dead signal is set, and
the backend no longer accepts calls. -/
def handlerShutdown (s : ClientState) : ClientState :=
  { s with connectedSignal := false,
           pending := s.pending.fail_all,
           eventQueue := s.eventQueue
             ++ (s.pending.entries.filter (fun e => !e.2.isTerminal)).map
                  (fun e => ClientEvent.sendFailed e.1)
             ++ [ClientEvent.report ClientReport.isDead],
           deadSignal := true,
           backendAlive := false }

/-- Run a sequence of `Client::request` calls; each boolean is that call's
serialization outcome. Returns the per-call results and the final state. -/
def runRequests (s : ClientState) : List Bool → List (Option Nat) × ClientState
  | [] => ([], s)
  | b :: bs =>
    let r := Client.request s b
    let rest := runRequests r.2 bs
    (r.1 :: rest.1, rest.2)

/-- The request ids returned by the successful calls of a run. -/
def successIds : List (Option Nat) → List Nat
  | [] => []
  | none :: rest => successIds rest
  | some i :: rest => i :: successIds rest

/-- State after `n` calls to `Client::next`. -/
def drainN (s : ClientState) : Nat → ClientState
  | 0 => s
  | n + 1 => drainN (Client.next s).2 n

/-- A freshly created, connected client with an empty tracker (the state
`ClientFactory::new_client` produces, once the driver has connected). -/
def freshClient : ClientState :=
  ⟨true, false, false, true, PendingRequestTracker.init, [], []⟩

/-- A live server state used to instantiate theorems with hypotheses. -/
def aliveServer : ServerState := ⟨false, true, [], []⟩

/-- A token whose destination is live, for the same purpose. -/
def liveToken : RequestToken := ⟨7, 3, false⟩

/-- C3: `Server::reject(token)` sends nothing itself and is behaviorally
equivalent to dropping the token: an un-consumed token whose destination is
live synthesizes a `Reject(request_id)` frame to the originating client, and
nothing is sent when the destination is dead. -/
theorem server_reject_equals_drop (s : ServerState) (t : RequestToken) :
    Server.reject s t = Server.tokenDropEffect s t ∧
    (t.destination_is_dead = false →
      Server.reject s t =
        { s with commands :=
            s.commands ++ [ServerCommand.sendReject t.client_id t.request_id] }) ∧
    (t.destination_is_dead = true → Server.reject s t = s) := by
  refine ⟨rfl, ?_, ?_⟩ <;> intro h <;>
    simp [Server.reject, Server.tokenDropEffect, h]

theorem server_reject_equals_drop_witness :
    Server.reject aliveServer liveToken =
      { aliveServer with commands :=
          aliveServer.commands ++ [ServerCommand.sendReject liveToken.client_id liveToken.request_id] } :=
  (server_reject_equals_drop aliveServer liveToken).2.1 rfl

/-- C6: `Server::respond` and `Server::ack` return `Err` when the server is
dead; return `Ok` without forwarding anything when the server is alive but
the token's destination is dead; and forward the `Response`/`Ack` command
only when both the server and the destination are live. -/
theorem server_respond_ack_liveness (s : ServerState) (t : RequestToken) :
    (s.dead = true →
      Server.respond s t = (.err, s) ∧ Server.ack s t = (.err, s)) ∧
    (s.dead = false → t.destination_is_dead = true →
      Server.respond s t = (.ok, s) ∧ Server.ack s t = (.ok, s)) ∧
    (s.dead = false → t.destination_is_dead = false → s.channelOpen = true →
      Server.respond s t =
        (.ok, { s with commands :=
            s.commands ++ [ServerCommand.sendResponse t.client_id t.request_id] }) ∧
      Server.ack s t =
        (.ok, { s with commands :=
            s.commands ++ [ServerCommand.sendAck t.client_id t.request_id] })) ∧
    ((Server.respond s t).2.commands ≠ s.commands →
      s.dead = false ∧ t.destination_is_dead = false) ∧
    ((Server.ack s t).2.commands ≠ s.commands →
      s.dead = false ∧ t.destination_is_dead = false) := by
  refine ⟨?_, ?_, ?_, ?_, ?_⟩
  · intro h; exact ⟨by simp [Server.respond, h], by simp [Server.ack, h]⟩
  · intro h h2; exact ⟨by simp [Server.respond, h, h2], by simp [Server.ack, h, h2]⟩
  · intro h h2 h3
    exact ⟨by simp [Server.respond, h, h2, h3], by simp [Server.ack, h, h2, h3]⟩
  · intro h
    cases hd : s.dead with
    | true => exact absurd (by simp [Server.respond, hd]) h
    | false =>
      cases ht : t.destination_is_dead with
      | true => exact absurd (by simp [Server.respond, hd, ht]) h
      | false => exact ⟨rfl, rfl⟩
  · intro h
    cases hd : s.dead with
    | true => exact absurd (by simp [Server.ack, hd]) h
    | false =>
      cases ht : t.destination_is_dead with
      | true => exact absurd (by simp [Server.ack, hd, ht]) h
      | false => exact ⟨rfl, rfl⟩

theorem server_respond_ack_liveness_witness :
    Server.respond aliveServer liveToken =
      (.ok, { aliveServer with commands :=
          aliveServer.commands ++ [ServerCommand.sendResponse liveToken.client_id liveToken.request_id] }) ∧
    Server.ack aliveServer liveToken =
      (.ok, { aliveServer with commands :=
          aliveServer.commands ++ [ServerCommand.sendAck liveToken.client_id liveToken.request_id] }) :=
  (server_respond_ack_liveness aliveServer liveToken).2.2.1 rfl rfl rfl

/-- C10: `Server::send` and `Server::close_session` never consult the session
registry: when the server is not dead and the command channel accepts the
command they return `Ok` even for a session id that is not connected, and
their results do not depend on the registry contents at all. -/
theorem server_send_close_session_no_registry_check (s : ServerState) (id : Nat) :
    (s.dead = false → s.channelOpen = true → id ∉ s.sessions →
      Server.send s id =
        (.ok, { s with commands := s.commands ++ [ServerCommand.sendMsg id] }) ∧
      Server.close_session s id =
        (.ok, { s with commands := s.commands ++ [ServerCommand.closeSession id] })) ∧
    (∀ other : List Nat,
      (Server.send { s with sessions := other } id).1 = (Server.send s id).1 ∧
      (Server.close_session { s with sessions := other } id).1 =
        (Server.close_session s id).1) := by
  constructor
  · intro h h2 _
    exact ⟨by simp [Server.send, h, h2], by simp [Server.close_session, h, h2]⟩
  · intro other
    constructor <;>
      · simp only [Server.send, Server.close_session]
        split_ifs <;> rfl

theorem server_send_close_session_no_registry_check_witness :
    Server.send aliveServer 42 =
      (.ok, { aliveServer with commands := aliveServer.commands ++ [ServerCommand.sendMsg 42] }) :=
  ((server_send_close_session_no_registry_check aliveServer 42).1 rfl rfl
    (by decide)).1

/-- C9: `Client::close` is idempotent — when the client is already closed it
changes nothing (no close frame, no second `ClosedBySelf` report, no flag
change) — and dropping a client that is not dead invokes `close` exactly
once, while dropping a dead client does nothing. -/
theorem client_close_idempotent (s : ClientState) :
    (Client.is_closed s = true → Client.close s = s) ∧
    Client.close (Client.close s) = Client.close s ∧
    (Client.is_dead s = false → Client.dropClient s = Client.close s) ∧
    (Client.is_dead s = true → Client.dropClient s = s) := by
  refine ⟨?_, ?_, ?_, ?_⟩
  · intro h; simp [Client.close, h]
  · by_cases h : Client.is_closed s = true
    · simp [Client.close, h]
    · by_cases hb : s.backendAlive
      · have h1 : Client.close s =
            { s with eventQueue := s.eventQueue ++ [ClientEvent.report ClientReport.closedBySelf],
                     closedBySelf := true } := by
          simp [Client.close, h, hb]
        rw [h1]
        simp [Client.close, Client.is_closed]
      · simp [Client.close, h, hb]
  · intro h; simp [Client.dropClient, h]
  · intro h; simp [Client.dropClient, h]

theorem client_close_idempotent_witness :
    Client.dropClient freshClient = Client.close freshClient ∧
    Client.close { freshClient with closedBySelf := true } =
      { freshClient with closedBySelf := true } :=
  ⟨(client_close_idempotent freshClient).2.2.1 rfl,
   (client_close_idempotent { freshClient with closedBySelf := true }).1 rfl⟩

/-- C5: prevalidation accepts (and the handler performs the upgrade) exactly
when the protocol version matches, the env type is recognized, the connection
count is below the cap, and the authenticator accepts; otherwise the matching
reject class is returned (400 for version/env, 503 for capacity, 401 for
auth), checks applied in the spec table's order. -/
theorem prevalidation_admission (v : String) (mx cnt : Nat) (q : UpgradeQuery) :
    ((∃ e, websocket_handler v mx cnt q = .upgraded e) ↔
      (q.protocol_version = v ∧ q.env_type ≠ none ∧ cnt < mx ∧ q.authOk = true)) ∧
    (q.protocol_version ≠ v → websocket_handler v mx cnt q = .httpReject 400) ∧
    (q.protocol_version = v → q.env_type = none →
      websocket_handler v mx cnt q = .httpReject 400) ∧
    (q.protocol_version = v → q.env_type ≠ none → mx ≤ cnt →
      websocket_handler v mx cnt q = .httpReject 503) ∧
    (q.protocol_version = v → q.env_type ≠ none → cnt < mx → q.authOk = false →
      websocket_handler v mx cnt q = .httpReject 401) := by
  obtain ⟨pv, et, ao⟩ := q
  by_cases hv : pv = v
  · cases et with
    | none => simp [websocket_handler, prevalidate_connection_request, hv]
    | some e =>
      by_cases hc : mx ≤ cnt
      · simp [websocket_handler, prevalidate_connection_request, hv, hc,
              Nat.not_lt.mpr hc]
      · cases ao with
        | true =>
          simp [websocket_handler, prevalidate_connection_request, hv, hc,
                Nat.lt_of_not_le hc]
        | false =>
          simp [websocket_handler, prevalidate_connection_request, hv, hc]
  · simp [websocket_handler, prevalidate_connection_request, hv]

theorem prevalidation_admission_witness :
    (∃ e, websocket_handler "v1" 2 1
        (⟨"v1", some EnvType.native, true⟩ : UpgradeQuery) = .upgraded e) ∧
    websocket_handler "v1" 2 1
        (⟨"v1", some EnvType.native, false⟩ : UpgradeQuery) = .httpReject 401 :=
  ⟨(prevalidation_admission "v1" 2 1 ⟨"v1", some EnvType.native, true⟩).1.mpr
      ⟨rfl, by decide, by decide, rfl⟩,
   (prevalidation_admission "v1" 2 1 ⟨"v1", some EnvType.native, false⟩).2.2.2.2
      rfl (by decide) (by decide) rfl⟩

/-- C7: a `Client::send` or `Client::request` made while the client is not
connected (being closed implies not connected) returns `Err` with the state
untouched, and a serialization failure returns `Err` without transmitting any
frame. -/
theorem client_send_request_err_no_frame (s : ClientState) (serOk : Bool) :
    (Client.is_closed s = true → Client.is_connected s = false) ∧
    (Client.is_connected s = false →
      Client.send s serOk = (.err, s) ∧ Client.request s serOk = (none, s)) ∧
    ((Client.send s false).1 = .err ∧ (Client.send s false).2.wire = s.wire) ∧
    ((Client.request s false).1 = none ∧
      (Client.request s false).2.wire = s.wire) := by
  refine ⟨?_, ?_, ?_, ?_⟩
  · intro h; simp [Client.is_connected, h]
  · intro h; exact ⟨by simp [Client.send, h], by simp [Client.request, h]⟩
  · constructor
    all_goals (simp only [Client.send]; split_ifs <;> simp_all)
  · constructor
    all_goals (simp only [Client.request]; split_ifs <;> simp_all)

/-- The state of a client whose driver has lost the connection. -/
def disconnectedClient : ClientState := { freshClient with connectedSignal := false }

theorem client_send_request_err_no_frame_witness :
    Client.send disconnectedClient true = (.err, disconnectedClient) ∧
    Client.request disconnectedClient true = (none, disconnectedClient) :=
  (client_send_request_err_no_frame disconnectedClient true).2.1 (by decide)

theorem request_not_connected (s : ClientState) (b : Bool)
    (h : Client.is_connected s = false) : Client.request s b = (none, s) := by
  simp [Client.request, h]

theorem runRequests_not_connected (bs : List Bool) (s : ClientState)
    (h : s.connectedSignal = false) :
    runRequests s bs = (bs.map (fun _ => none), s) := by
  induction bs with
  | nil => rfl
  | cons b bs ih =>
    have hc : Client.is_connected s = false := by simp [Client.is_connected, h]
    simp [runRequests, request_not_connected s b hc, ih]

/-- C1: `Client::request` checks the connected flag and reserves the request
id only after taking the pending-request tracker mutex, and the handler
clears the connected flag before running `fail_all` under that same mutex.
Consequently, once the disconnection step has run, every subsequent
`request` call returns `Err` and leaves the whole state — in particular the
tracker entries produced by `fail_all` — unchanged. -/
theorem client_request_blocked_after_fail_all (s : ClientState) (bs : List Bool) :
    (runRequests (handlerDisconnect s) bs).1 = bs.map (fun _ => none) ∧
    (runRequests (handlerDisconnect s) bs).2 = handlerDisconnect s ∧
    (handlerDisconnect s).pending.entries = s.pending.fail_all.entries := by
  have h := runRequests_not_connected bs (handlerDisconnect s) rfl
  exact ⟨by rw [h], by rw [h], rfl⟩

theorem runRequests_cons (s : ClientState) (b : Bool) (bs : List Bool) :
    runRequests s (b :: bs) =
      ((Client.request s b).1 :: (runRequests (Client.request s b).2 bs).1,
       (runRequests (Client.request s b).2 bs).2) := rfl

theorem request_next_id_mono (s : ClientState) (b : Bool) :
    s.pending.next_id ≤ (Client.request s b).2.pending.next_id := by
  simp only [Client.request, PendingRequestTracker.reserve_id,
             PendingRequestTracker.add_request]
  split_ifs <;> simp [Nat.le_succ]

theorem request_some_id (s : ClientState) (b : Bool) (i : Nat)
    (h : (Client.request s b).1 = some i) :
    i = s.pending.next_id ∧
    (Client.request s b).2.pending.next_id = s.pending.next_id + 1 := by
  simp only [Client.request, PendingRequestTracker.reserve_id,
             PendingRequestTracker.add_request] at h ⊢
  split_ifs at h ⊢
  all_goals simp_all

theorem runRequests_ids_lb (bs : List Bool) :
    ∀ (s : ClientState) (i : Nat), i ∈ successIds (runRequests s bs).1 →
      s.pending.next_id ≤ i := by
  induction bs with
  | nil => intro s i h; simp [runRequests, successIds] at h
  | cons b bs ih =>
    intro s i h
    rw [runRequests_cons] at h
    cases hr : (Client.request s b).1 with
    | none =>
      rw [hr] at h
      simp only [successIds] at h
      exact Nat.le_trans (request_next_id_mono s b) (ih _ i h)
    | some j =>
      rw [hr] at h
      simp only [successIds, List.mem_cons] at h
      obtain ⟨hj, hnext⟩ := request_some_id s b j hr
      cases h with
      | inl h => rw [h, hj]
      | inr h =>
        have hle := ih _ i h
        rw [hnext] at hle
        exact Nat.le_trans (Nat.le_succ _) hle

theorem runRequests_ids_pairwise (bs : List Bool) :
    ∀ s : ClientState, (successIds (runRequests s bs).1).Pairwise (· < ·) := by
  induction bs with
  | nil => intro s; simp [runRequests, successIds]
  | cons b bs ih =>
    intro s
    rw [runRequests_cons]
    cases hr : (Client.request s b).1 with
    | none =>
      simpa only [successIds] using ih (Client.request s b).2
    | some j =>
      simp only [successIds, List.pairwise_cons]
      refine ⟨?_, ih (Client.request s b).2⟩
      intro i hi
      obtain ⟨hj, hnext⟩ := request_some_id s b j hr
      have hle := runRequests_ids_lb bs _ i hi
      rw [hnext] at hle
      rw [hj]
      exact Nat.lt_of_succ_le hle

/-- C4: the request ids a single client assigns across successive successful
`request` calls are strictly increasing — hence unique for the lifetime of the
client object — and allocation starts from 1 on a fresh tracker. -/
theorem client_request_ids_monotone (s : ClientState) (bs : List Bool) :
    PendingRequestTracker.init.reserve_id.1 = 1 ∧
    (successIds (runRequests s bs).1).Pairwise (· < ·) ∧
    (successIds (runRequests s bs).1).Nodup ∧
    (s.pending = PendingRequestTracker.init →
      ∀ i ∈ successIds (runRequests s bs).1, 1 ≤ i) := by
  refine ⟨rfl, runRequests_ids_pairwise bs s, ?_, ?_⟩
  · exact (runRequests_ids_pairwise bs s).imp fun h => Nat.ne_of_lt h
  · intro hp i hi
    have hle := runRequests_ids_lb bs s i hi
    rw [hp] at hle
    exact hle

theorem client_request_ids_monotone_witness :
    (1 : Nat) ≤ 1 ∧
    (successIds (runRequests freshClient [true, false, true]).1).Pairwise (· < ·) :=
  ⟨(client_request_ids_monotone freshClient [true, false, true]).2.2.2 rfl 1 (by decide),
   (client_request_ids_monotone freshClient [true, false, true]).2.1⟩

theorem capStep_le (maxConn : Nat) (st : CapState) (op : CapOp)
    (h : st.sessions.length ≤ maxConn) :
    (capStep maxConn st op).sessions.length ≤ maxConn := by
  cases op with
  | connect id =>
    simp only [capStep, capConnect]
    split_ifs with hc
    · exact h
    · simpa using Nat.succ_le_of_lt (Nat.lt_of_not_le hc)
  | disconnect id =>
    simp only [capStep, capDisconnect]
    split_ifs with hm
    · exact Nat.le_trans (List.Sublist.length_le (List.erase_sublist id st.sessions)) h
    · exact h

theorem capRun_le (maxConn : Nat) (ops : List CapOp) :
    ∀ st : CapState, st.sessions.length ≤ maxConn →
      (capRun maxConn st ops).sessions.length ≤ maxConn := by
  induction ops with
  | nil => intro st h; exact h
  | cons op ops ih =>
    intro st h
    exact ih (capStep maxConn st op) (capStep_le maxConn st op h)

/-- C2: in the admission-control model the connection tally never exceeds
`max_connections`; a connection attempt at the cap leaves the state untouched
while the client observes `Connected` then `ClosedByServer` and the server
emits nothing; and after one session disconnects exactly one more admission
succeeds (the next attempt is rejected again). -/
theorem connection_cap_invariant (maxConn : Nat) (ops : List CapOp)
    (st : CapState) (id id2 : Nat) :
    (capRun maxConn ⟨[], []⟩ ops).sessions.length ≤ maxConn ∧
    (st.sessions.length = maxConn →
      capConnect maxConn st id =
        ([ClientReport.connected, ClientReport.closedByServer], st)) ∧
    (st.sessions.length = maxConn → id ∈ st.sessions →
      (capConnect maxConn (capDisconnect st id) id2).1 = [ClientReport.connected] ∧
      (capConnect maxConn (capDisconnect st id) id2).2.serverEvents =
        (capDisconnect st id).serverEvents ++ [ServerReportEvent.connected id2] ∧
      (capConnect maxConn (capDisconnect st id) id2).2.sessions.length = maxConn ∧
      (capConnect maxConn (capConnect maxConn (capDisconnect st id) id2).2 id2).1 =
        [ClientReport.connected, ClientReport.closedByServer]) := by
  refine ⟨capRun_le maxConn ops ⟨[], []⟩ (Nat.zero_le _), ?_, ?_⟩
  · intro h
    simp [capConnect, h]
  · intro hlen hm
    have hpos : 1 ≤ maxConn := by
      rw [← hlen]
      exact Nat.succ_le_of_lt (List.length_pos_of_mem hm)
    have hde : capDisconnect st id =
        ⟨st.sessions.erase id,
         st.serverEvents ++ [ServerReportEvent.disconnected id]⟩ := by
      simp [capDisconnect, hm]
    have hlen2 : (st.sessions.erase id).length = maxConn - 1 := by
      rw [List.length_erase_of_mem hm, hlen]
    have hlt : maxConn - 1 < maxConn := Nat.sub_lt hpos Nat.one_pos
    have hcon : capConnect maxConn (capDisconnect st id) id2 =
        ([ClientReport.connected],
         ⟨st.sessions.erase id ++ [id2],
          (st.serverEvents ++ [ServerReportEvent.disconnected id])
            ++ [ServerReportEvent.connected id2]⟩) := by
      rw [hde]
      simp [capConnect, hlen2, Nat.not_le.mpr hlt]
    have hfull : (st.sessions.erase id ++ [id2]).length = maxConn := by
      simp [hlen2]
      omega
    refine ⟨by rw [hcon], by rw [hcon, hde], by rw [hcon]; exact hfull, ?_⟩
    rw [hcon]
    simp [capConnect, hfull]

theorem connection_cap_invariant_witness :
    capConnect 1 (⟨[5], []⟩ : CapState) 9 =
      ([ClientReport.connected, ClientReport.closedByServer], (⟨[5], []⟩ : CapState)) ∧
    (capConnect 1 (capDisconnect ⟨[5], []⟩ 5) 9).1 = [ClientReport.connected] :=
  ⟨(connection_cap_invariant 1 [] ⟨[5], []⟩ 9 0).2.1 rfl,
   ((connection_cap_invariant 1 [] ⟨[5], []⟩ 5 9).2.2 rfl (by decide)).1⟩

theorem next_fst (s : ClientState) : (Client.next s).1 = s.eventQueue.head? := by
  cases hq : s.eventQueue <;> simp [Client.next, hq]

theorem drainN_eventQueue (n : Nat) :
    ∀ s : ClientState, (drainN s n).eventQueue = s.eventQueue.drop n := by
  induction n with
  | zero => intro s; rfl
  | succ n ih =>
    intro s
    rw [drainN, ih]
    cases hq : s.eventQueue with
    | nil => simp [Client.next, hq]
    | cons e rest => simp [Client.next, hq]

theorem drop_concat_head_nil {α : Type} {d : α} :
    ∀ (l : List α) (k : Nat), d ∉ l → ((l ++ [d]).drop k).head? = some d →
      (l ++ [d]).drop (k + 1) = [] := by
  intro l
  induction l with
  | nil =>
    intro k _ h
    cases k with
    | zero => rfl
    | succ k =>
      rw [List.nil_append, List.drop_succ_cons, List.drop_nil] at h
      exact Option.noConfusion h
  | cons x l ih =>
    intro k hd h
    cases k with
    | zero =>
      simp only [List.cons_append, List.drop_zero, List.head?_cons,
                 Option.some.injEq] at h
      exact absurd (h ▸ List.mem_cons_self x l) hd
    | succ k =>
      simp only [List.cons_append, List.drop_succ_cons] at h ⊢
      exact ih k (fun hm => hd (List.mem_cons_of_mem x hm)) h

theorem drop_concat_head_nil_add {α : Type} {d : α} (l : List α) (k m : Nat)
    (hd : d ∉ l) (h : ((l ++ [d]).drop k).head? = some d) :
    (l ++ [d]).drop (k + 1 + m) = [] := by
  rw [← List.drop_drop m (k + 1), drop_concat_head_nil l k hd h, List.drop_nil]

theorem handlerShutdown_close_queue (s : ClientState)
    (hc : Client.is_closed s = false) (hb : s.backendAlive = true) :
    (handlerShutdown (Client.close s)).eventQueue =
      ((s.eventQueue ++ [ClientEvent.report ClientReport.closedBySelf])
        ++ (s.pending.entries.filter (fun e => !e.2.isTerminal)).map
             (fun e => ClientEvent.sendFailed e.1))
      ++ [ClientEvent.report ClientReport.isDead] := by
  have h1 : Client.close s =
      { s with eventQueue := s.eventQueue ++ [ClientEvent.report ClientReport.closedBySelf],
               closedBySelf := true } := by
    simp [Client.close, hc, hb]
  rw [h1]
  simp [handlerShutdown]

/-- C8: after a `close` on a live client, the `ClosedBySelf` report is in the
event stream, the handler's shutdown makes `IsDead` the last queued event,
the client tests dead, and once a `next` call has returned `IsDead`, every
later `next` call returns `None`. -/
theorem client_close_isdead_last (s : ClientState)
    (hc : Client.is_closed s = false) (hb : s.backendAlive = true)
    (hq : ClientEvent.report ClientReport.isDead ∉ s.eventQueue) :
    ClientEvent.report ClientReport.closedBySelf ∈
      (handlerShutdown (Client.close s)).eventQueue ∧
    (handlerShutdown (Client.close s)).eventQueue.getLast? =
      some (ClientEvent.report ClientReport.isDead) ∧
    Client.is_dead (handlerShutdown (Client.close s)) = true ∧
    ∀ k, (Client.next (drainN (handlerShutdown (Client.close s)) k)).1 =
          some (ClientEvent.report ClientReport.isDead) →
      ∀ m, (Client.next
              (drainN (handlerShutdown (Client.close s)) (k + 1 + m))).1 = none := by
  have hqe := handlerShutdown_close_queue s hc hb
  have hnot : ClientEvent.report ClientReport.isDead ∉
      ((s.eventQueue ++ [ClientEvent.report ClientReport.closedBySelf])
        ++ (s.pending.entries.filter (fun e => !e.2.isTerminal)).map
             (fun e => ClientEvent.sendFailed e.1)) := by
    intro hmem
    rcases List.mem_append.mp hmem with h1 | h2
    · rcases List.mem_append.mp h1 with h3 | h4
      · exact hq h3
      · simp at h4
    · rcases List.mem_map.mp h2 with ⟨e, _, he⟩
      exact ClientEvent.noConfusion he
  refine ⟨?_, ?_, rfl, ?_⟩
  · rw [hqe]; simp
  · rw [hqe]; exact List.getLast?_concat _
  · intro k hk m
    rw [next_fst, drainN_eventQueue, hqe] at hk
    rw [next_fst, drainN_eventQueue, hqe,
        drop_concat_head_nil_add _ k m hnot hk]
    rfl

theorem client_close_isdead_last_witness :
    (Client.next (drainN (handlerShutdown (Client.close freshClient)) 2)).1 = none :=
  (client_close_isdead_last freshClient rfl rfl (by decide)).2.2.2 1 (by decide) 0

end BevySimplenet
